import Mathlib

/-!
Verification of the chunkymonkey game-server specification against its Go
source.  Each section shallowly embeds one part of the source:

* machine integers are modelled as `Int` (with explicit wrapping where the Go
  code can wrap) or as `Nat` for unsigned bytes;
* Go slices become `List Nat`; fallible Go functions returning `(value, err)`
  become `Except`-valued functions;
* absolute (float64) world coordinates are modelled as `Rat`: every float64
  is a rational, the source only compares them and divides them by 16 (which
  is exact in binary floating point), so the rational model is faithful for
  all representable inputs;
* Go map iteration is modelled by list traversal; all the proved statements
  about maps are order-independent.

Definitions carry the names of the Go functions they embed.  A few functions
live in repository files that are not part of the given sources (only their
callers are); those are modelled from the specification and marked
`Modelled from the spec:` in their doc comment.
-/

namespace CM

/-! ## Types and coordinates (types package)

Embeds `coordDivMod`, `BlockXyz.ToChunkLocal` and `ChunkXz.ToBlockXyz` from
the types package.  `ChunkCoord`/`BlockCoord` are int32 in Go; they are
modelled as `Int`.  On the inputs admitted by the theorems below none of the
modelled operations can overflow int32, so no wrapping is applied.
-/

/-- Value of the Go constant `ChunkSizeH`. -/
def ChunkSizeH : Int := 16

/-- Value of the Go constant `ChunkSizeY`. -/
def ChunkSizeY : Int := 128

/-- Value of the Go constant `ChunkRadius`. -/
def ChunkRadius : Int := 10

/-- Chunk column coordinates (Go struct `ChunkXz` with int32 fields). -/
structure ChunkXz where
  x : Int
  z : Int
deriving Repr, DecidableEq

/-- Block coordinates within a chunk (Go struct `SubChunkXyz`; each
`SubChunkCoord` field is a byte, modelled as `Nat` below 256). -/
structure SubChunkXyz where
  x : Nat
  y : Nat
  z : Nat
deriving Repr, DecidableEq

/-- World block coordinates (Go struct `BlockXyz`: `X Z` are int32
(`BlockCoord`), `Y` is int8 (`BlockYCoord`)). -/
structure BlockXyz where
  x : Int
  y : Int
  z : Int
deriving Repr, DecidableEq

/-- Conversion of a Go byte value to int8 (two's complement reinterpretation). -/
def int8OfByte (n : Nat) : Int :=
  if n < 128 then (n : Int) else (n : Int) - 256

/-- Conversion of a Go int32 (or int8) value to a byte: reinterpretation
modulo 256.  `Int.emod` with positive modulus is nonnegative, matching the
unsigned result. -/
def byteOfInt (i : Int) : Nat := (i % 256).toNat

/-- Embeds `func coordDivMod(num, denom int32) (div, mod int32)`:
truncated division and remainder (Go `/` and `%`), then if the remainder is
negative, add `denom` to it and decrement the quotient. -/
def coordDivMod (num denom : Int) : Int × Int :=
  let div := num.tdiv denom
  let mod := num.tmod denom
  if mod < 0 then (div - 1, mod + denom) else (div, mod)

/-- Embeds `func (blockLoc *BlockXyz) ToChunkLocal() (chunkLoc, subLoc)`:
splits X and Z by `coordDivMod(·, ChunkSizeH)`; the sub-chunk Y is the int8
Y reinterpreted as a byte (`SubChunkCoord(blockLoc.Y)`). -/
def BlockXyz.ToChunkLocal (b : BlockXyz) : ChunkXz × SubChunkXyz :=
  let px := coordDivMod b.x ChunkSizeH
  let pz := coordDivMod b.z ChunkSizeH
  (⟨px.1, pz.1⟩, ⟨byteOfInt px.2, byteOfInt b.y, byteOfInt pz.2⟩)

/-- Embeds `func (chunkLoc *ChunkXz) ToBlockXyz(subLoc *SubChunkXyz)`:
`BlockCoord(chunkLoc.X)*ChunkSizeH + BlockCoord(subLoc.X)` for X and Z, and
the byte sub-chunk Y reinterpreted as int8 (`BlockYCoord(subLoc.Y)`). -/
def ChunkXz.ToBlockXyz (c : ChunkXz) (subLoc : SubChunkXyz) : BlockXyz :=
  ⟨c.x * ChunkSizeH + (subLoc.x : Int), int8OfByte subLoc.y,
    c.z * ChunkSizeH + (subLoc.z : Int)⟩

theorem tmod_neg_dividend (a b : Int) : (-a).tmod b = -(a.tmod b) := by
  rw [Int.tmod_def, Int.tmod_def, Int.neg_tdiv]
  ring

theorem tmod_gt_neg (a : Int) {b : Int} (h : 0 < b) : -b < a.tmod b := by
  rcases le_or_lt 0 a with ha | ha
  · have := Int.tmod_nonneg b ha
    omega
  · have h1 : a.tmod b = -((-a).tmod b) := by
      rw [tmod_neg_dividend]
      ring
    have h2 : (-a).tmod b < b := Int.tmod_lt_of_pos (-a) h
    omega

theorem coordDivMod_identity (num denom : Int) (hd : 0 < denom) :
    num = (coordDivMod num denom).1 * denom + (coordDivMod num denom).2 ∧
      0 ≤ (coordDivMod num denom).2 ∧ (coordDivMod num denom).2 < denom := by
  have hid : denom * num.tdiv denom + num.tmod denom = num :=
    Int.tdiv_add_tmod num denom
  have hlt : num.tmod denom < denom := Int.tmod_lt_of_pos num hd
  have hgt : -denom < num.tmod denom := tmod_gt_neg num hd
  unfold coordDivMod
  by_cases hneg : num.tmod denom < 0
  · simp only [hneg, reduceIte]
    refine ⟨?_, by omega, by omega⟩
    have hexp : (num.tdiv denom - 1) * denom = denom * num.tdiv denom - denom := by
      ring
    omega
  · simp only [hneg, reduceIte]
    refine ⟨?_, by omega, by omega⟩
    have hexp : num.tdiv denom * denom = denom * num.tdiv denom := by
      ring
    omega

theorem byteOfInt_of_range {i : Int} (h0 : 0 ≤ i) (h1 : i < 256) :
    (byteOfInt i : Int) = i := by
  unfold byteOfInt
  rw [Int.emod_eq_of_lt h0 h1]
  exact Int.toNat_of_nonneg h0

/-- C10: for every int32 `num` and positive denominator, `coordDivMod`
returns `(div, mod)` with `num = div*denom + mod` and `0 ≤ mod < denom`
(also for negative `num`); consequently `BlockXyz.ToChunkLocal` yields
in-chunk X and Z offsets in `[0, 16)`, and `ChunkXz.ToBlockXyz` applied to
the resulting chunk location and sub-chunk offsets reconstructs the original
block X and Z coordinates. -/
theorem coordDivMod_toChunkLocal_roundtrip :
    (∀ num denom : Int, -(2 ^ 31) ≤ num → num < 2 ^ 31 → 0 < denom →
      num = (coordDivMod num denom).1 * denom + (coordDivMod num denom).2 ∧
        0 ≤ (coordDivMod num denom).2 ∧ (coordDivMod num denom).2 < denom) ∧
    (∀ b : BlockXyz, -(2 ^ 31) ≤ b.x → b.x < 2 ^ 31 →
        -(2 ^ 31) ≤ b.z → b.z < 2 ^ 31 →
      b.ToChunkLocal.2.x < 16 ∧ b.ToChunkLocal.2.z < 16 ∧
      (ChunkXz.ToBlockXyz b.ToChunkLocal.1 b.ToChunkLocal.2).x = b.x ∧
      (ChunkXz.ToBlockXyz b.ToChunkLocal.1 b.ToChunkLocal.2).z = b.z) := by
  constructor
  · intro num denom _ _ hd
    exact coordDivMod_identity num denom hd
  · intro b _ _ _ _
    have hx := coordDivMod_identity b.x ChunkSizeH (by norm_num [ChunkSizeH])
    have hz := coordDivMod_identity b.z ChunkSizeH (by norm_num [ChunkSizeH])
    have h16 : ChunkSizeH = (16 : Int) := rfl
    obtain ⟨hxid, hx0, hx16⟩ := hx
    obtain ⟨hzid, hz0, hz16⟩ := hz
    have hbx : ((byteOfInt (coordDivMod b.x ChunkSizeH).2 : Nat) : Int) =
        (coordDivMod b.x ChunkSizeH).2 :=
      byteOfInt_of_range hx0 (by omega)
    have hbz : ((byteOfInt (coordDivMod b.z ChunkSizeH).2 : Nat) : Int) =
        (coordDivMod b.z ChunkSizeH).2 :=
      byteOfInt_of_range hz0 (by omega)
    unfold BlockXyz.ToChunkLocal ChunkXz.ToBlockXyz
    simp only []
    refine ⟨?_, ?_, ?_, ?_⟩
    · have : (byteOfInt (coordDivMod b.x ChunkSizeH).2 : Int) < 16 := by omega
      exact_mod_cast this
    · have : (byteOfInt (coordDivMod b.z ChunkSizeH).2 : Int) < 16 := by omega
      exact_mod_cast this
    · rw [hbx]
      omega
    · rw [hbz]
      omega

/-- Witness for C10 at the concrete input `num = -37`, `denom = 16` and the
block position `(-37, -3, 35)`. -/
theorem coordDivMod_toChunkLocal_roundtrip_witness :
    (coordDivMod (-37) 16 = (-3, 11)) ∧
    (BlockXyz.ToChunkLocal ⟨-37, -3, 35⟩).2.x = 11 ∧
    (ChunkXz.ToBlockXyz (BlockXyz.ToChunkLocal ⟨-37, -3, 35⟩).1
      (BlockXyz.ToChunkLocal ⟨-37, -3, 35⟩).2).x = -37 := by
  have h := coordDivMod_toChunkLocal_roundtrip
  have h1 := h.1 (-37) 16 (by norm_num) (by norm_num) (by norm_num)
  have h2 := h.2 ⟨-37, -3, 35⟩ (by norm_num) (by norm_num) (by norm_num)
    (by norm_num)
  refine ⟨by decide, ?_, h2.2.2.1⟩
  decide

end CM

namespace CM

/-! ## Chunk-subscription square difference (player package, chunkSubscriptions)

Embeds `squareDifference` from the player frontend: the chunk locations in
the `radius`-square around `centerA` that are not in the `radius`-square
around `centerB`, produced by two nested inclusive loops over the A square
that skip positions inside the B square.  `moveToChunk` subscribes to
`squareDifference(newChunkLoc, curChunkLoc, ChunkRadius)` and unsubscribes
from `squareDifference(curChunkLoc, newChunkLoc, ChunkRadius)`.
-/

/-- Index sequence of the Go loop `for v := lo; v <= hi; v++`. -/
def intRange (lo hi : Int) : List Int :=
  (List.range (hi + 1 - lo).toNat).map (fun i : Nat => lo + (i : Int))

/-- Membership of a chunk location in the `(2r+1)`-square centered on `c`
(the condition of the inner `if` of `squareDifference`, and the loop bounds
of its outer loops). -/
def inSquare (c : ChunkXz) (r : Int) (p : ChunkXz) : Prop :=
  c.x - r ≤ p.x ∧ p.x ≤ c.x + r ∧ c.z - r ≤ p.z ∧ p.z ≤ c.z + r

instance (c : ChunkXz) (r : Int) (p : ChunkXz) : Decidable (inSquare c r p) := by
  unfold inSquare
  infer_instance

/-- Embeds `func squareDifference(centerA, centerB ChunkXz, radius ChunkCoord) []ChunkXz`. -/
def squareDifference (centerA centerB : ChunkXz) (radius : Int) : List ChunkXz :=
  (intRange (centerA.x - radius) (centerA.x + radius)).flatMap fun x =>
    (intRange (centerA.z - radius) (centerA.z + radius)).filterMap fun z =>
      if centerB.x - radius ≤ x ∧ x ≤ centerB.x + radius ∧
          centerB.z - radius ≤ z ∧ z ≤ centerB.z + radius then
        none
      else
        some ⟨x, z⟩

theorem mem_intRange {lo hi a : Int} : a ∈ intRange lo hi ↔ lo ≤ a ∧ a ≤ hi := by
  unfold intRange
  rw [List.mem_map]
  constructor
  · rintro ⟨i, hilt, rfl⟩
    rw [List.mem_range] at hilt
    have := Int.lt_toNat.mp hilt
    omega
  · rintro ⟨h1, h2⟩
    refine ⟨(a - lo).toNat, ?_, by omega⟩
    rw [List.mem_range]
    omega

theorem nodup_intRange {lo hi : Int} : (intRange lo hi).Nodup := by
  unfold intRange
  refine List.Nodup.map ?_ (List.nodup_range _)
  intro a b h
  dsimp only at h
  omega

theorem mem_squareDifference {cA cB : ChunkXz} {r : Int} {p : ChunkXz} :
    p ∈ squareDifference cA cB r ↔ inSquare cA r p ∧ ¬ inSquare cB r p := by
  unfold squareDifference inSquare
  simp only [List.mem_flatMap, List.mem_filterMap, mem_intRange]
  constructor
  · rintro ⟨x, ⟨hx1, hx2⟩, z, ⟨⟨hz1, hz2⟩, hif⟩⟩
    split at hif
    · exact absurd hif (by simp)
    · rename_i hcond
      injection hif with hif
      subst hif
      exact ⟨⟨hx1, hx2, hz1, hz2⟩, hcond⟩
  · rintro ⟨⟨hx1, hx2, hz1, hz2⟩, hcond⟩
    refine ⟨p.x, ⟨hx1, hx2⟩, p.z, ⟨⟨hz1, hz2⟩, ?_⟩⟩
    rw [if_neg hcond]

theorem squareDifference_inner_fst {cA cB : ChunkXz} {r x : Int} {p : ChunkXz}
    (h : p ∈ (intRange (cA.z - r) (cA.z + r)).filterMap fun z =>
      if cB.x - r ≤ x ∧ x ≤ cB.x + r ∧ cB.z - r ≤ z ∧ z ≤ cB.z + r then
        none
      else
        some ⟨x, z⟩) :
    p.x = x := by
  rw [List.mem_filterMap] at h
  obtain ⟨z, _, hif⟩ := h
  split at hif
  · exact absurd hif (by simp)
  · injection hif with hif
    subst hif
    rfl

theorem nodup_squareDifference (cA cB : ChunkXz) (r : Int) :
    (squareDifference cA cB r).Nodup := by
  unfold squareDifference
  rw [List.nodup_flatMap]
  constructor
  · intro x _
    refine List.Nodup.filterMap ?_ nodup_intRange
    intro z z' b hb hbt
    split at hb
    · exact absurd hb (by simp)
    · split at hbt
      · exact absurd hbt (by simp)
      · injection hb with hb
        injection hbt with hbt
        rw [← hbt] at hb
        exact (ChunkXz.mk.injEq _ _ _ _).mp hb |>.2
  · refine List.Pairwise.imp ?_ nodup_intRange
    intro x y hxy p hpx hpy
    have h1 := squareDifference_inner_fst hpx
    have h2 := squareDifference_inner_fst hpy
    exact hxy (h1 ▸ h2 ▸ rfl)

/-- C4: `squareDifference(centerA, centerB, radius)` returns exactly the set
of chunk locations inside the square around `centerA` and outside the square
around `centerB`, without duplicates; for the move from chunk `(1,1)` to
`(2,2)` with radius 2 the add and drop sets have cardinality at most
`(radius+1)*(2*radius+1) = 15`, and a chunk lying in both squares appears in
neither set. -/
theorem squareDifference_symmetric_difference :
    (∀ (cA cB : ChunkXz) (r : Int) (p : ChunkXz),
      (p ∈ squareDifference cA cB r ↔ inSquare cA r p ∧ ¬ inSquare cB r p) ∧
      (squareDifference cA cB r).Nodup) ∧
    ((squareDifference ⟨2, 2⟩ ⟨1, 1⟩ 2).length ≤ 3 * 5 ∧
      (squareDifference ⟨1, 1⟩ ⟨2, 2⟩ 2).length ≤ 3 * 5) ∧
    (∀ p : ChunkXz, inSquare ⟨1, 1⟩ 2 p → inSquare ⟨2, 2⟩ 2 p →
      p ∉ squareDifference ⟨2, 2⟩ ⟨1, 1⟩ 2 ∧
        p ∉ squareDifference ⟨1, 1⟩ ⟨2, 2⟩ 2) := by
  refine ⟨fun cA cB r p => ⟨mem_squareDifference, nodup_squareDifference _ _ _⟩,
    ⟨by decide, by decide⟩, ?_⟩
  intro p hsrc hdest
  constructor
  · intro hmem
    exact (mem_squareDifference.mp hmem).2 hsrc
  · intro hmem
    exact (mem_squareDifference.mp hmem).2 hdest

/-- Witness for C4: the chunk `(4, 3)` is in the destination-minus-source
set for the move from `(1,1)` to `(2,2)` with radius 2, and the shared chunk
`(2, 2)` is in neither difference set. -/
theorem squareDifference_symmetric_difference_witness :
    (⟨4, 3⟩ : ChunkXz) ∈ squareDifference ⟨2, 2⟩ ⟨1, 1⟩ 2 ∧
      (⟨2, 2⟩ : ChunkXz) ∉ squareDifference ⟨2, 2⟩ ⟨1, 1⟩ 2 ∧
      (⟨2, 2⟩ : ChunkXz) ∉ squareDifference ⟨1, 1⟩ ⟨2, 2⟩ 2 := by
  have h := squareDifference_symmetric_difference
  have hmem := (h.1 ⟨2, 2⟩ ⟨1, 1⟩ 2 ⟨4, 3⟩).1.mpr (by decide)
  have hboth := h.2.2 ⟨2, 2⟩ (by decide) (by decide)
  exact ⟨hmem, hboth.1, hboth.2⟩

end CM

namespace CM

/-! ## Absolute coordinates and entities

Absolute (float64) coordinates are modelled as `Rat`.  The conversions below
avoid `Rat` field arithmetic so that they stay kernel-computable: Go
`ChunkCoord(abs.X / ChunkSizeH)` divides exactly by 16 and truncates toward
zero, which on the rational `num/den` representation is
`num tdiv (16 * den)`.
-/

/-- Absolute world position (Go struct `AbsXyz`, float64 fields). -/
structure AbsXyz where
  x : Rat
  y : Rat
  z : Rat
deriving Repr, DecidableEq

/-- Embeds `func (abs *AbsXyz) ToChunkXz()`: `ChunkCoord(abs.X / ChunkSizeH)`,
an exact division by 16 followed by float-to-int32 truncation toward zero. -/
def AbsXyz.ToChunkXz (p : AbsXyz) : ChunkXz :=
  ⟨p.x.num.tdiv (16 * (p.x.den : Int)), p.z.num.tdiv (16 * (p.z.den : Int))⟩

/-- Modelled from the spec: shard coordinates are the chunk coordinates
shifted right by the shard shift (shard groups of 16 by 16 chunks); the
shard types source is not among the given files.  Arithmetic right shift by
4 is floor division by 16. -/
structure ShardXz where
  x : Int
  z : Int
deriving Repr, DecidableEq

/-- Modelled from the spec: `ChunkXz.ToShardXz`, see `ShardXz`. -/
def ChunkXz.ToShardXz (c : ChunkXz) : ShardXz :=
  ⟨c.x.fdiv 16, c.z.fdiv 16⟩

/-- Model of a non-player entity (`gamerules.INonPlayerEntity`) at the point
of a chunk tick.  The `Tick` implementations live in external gamerules and
physics code; the model records the boolean that `e.Tick(chunk)` returns
this tick (`tickMoved`) and the position after the tick (`pos`, returned by
`e.Position()`). -/
structure EntityM where
  id : Int
  tickMoved : Bool
  pos : AbsXyz
deriving Repr, DecidableEq

/-! ## Chunk (shardserver package)

Embeds the `Chunk` struct of the shardserver package and its operations
`setBlock`, `chunkPacket`, `getBlockIndexByBlockXyz`, `BlockQuery`,
`reqMulticastPlayers` and `spawnTick`.  Go maps keyed by entity id or block
index are modelled as lists (of keys, or of entries); every proved statement
about them is order-independent.  Transmissions carry abstract packet values
rather than their serialized bytes. -/

/-- Block-type data consumed from the `gamerules.Blocks` registry; only the
`Solid` field is read by the functions modelled here. -/
structure BlockType where
  Solid : Bool
deriving Repr, DecidableEq

/-- Lookup in the block-type registry (`gamerules.Blocks.Get`).  The
registry is loaded at startup and read-only afterwards; it enters the model
as a function. -/
abbrev BlockRegistry := Nat → Option BlockType

/-- Solidity of a block-type id as `BlockQuery` computes it: the registry
entry when the id is known, solid (`true`) for an unknown id. -/
def solidDefault (reg : BlockRegistry) (blockTypeId : Nat) : Bool :=
  match reg blockTypeId with
  | some bt => bt.Solid
  | none => true

/-- Modelled from the spec: `SubChunkXyz.BlockIndex` of the types package is
not among the given sources.  Per the spec a chunk stores
`H*H*Y = 16*16*128` cells in parallel arrays indexed by the in-chunk
coordinates; out-of-range coordinates yield `ok = false`. -/
def SubChunkXyz.BlockIndex (s : SubChunkXyz) : Option Nat :=
  if s.x < 16 ∧ s.y < 128 ∧ s.z < 16 then
    some ((s.x * 16 + s.z) * 128 + s.y)
  else
    none

/-- Modelled from the spec: nibble read from a half-byte packed array
(`BlockIndex.BlockData`): cell `i` occupies the low nibble of byte `i/2`
when `i` is even, the high nibble when `i` is odd. -/
def nibbleGet (arr : List Nat) (index : Nat) : Nat :=
  if index % 2 = 0 then arr.getD (index / 2) 0 % 16
  else arr.getD (index / 2) 0 / 16 % 16

/-- Modelled from the spec: nibble write to a half-byte packed array
(`BlockIndex.SetBlockData`), preserving the other nibble of the byte. -/
def nibbleSet (arr : List Nat) (index : Nat) (v : Nat) : List Nat :=
  arr.set (index / 2)
    (if index % 2 = 0 then arr.getD (index / 2) 0 / 16 * 16 + v % 16
     else arr.getD (index / 2) 0 % 16 + v % 16 * 16)

/-- Abstract packet values carried by chunk transmissions (the chunk
serializes these with the packet codec before sending; the codec itself is
modelled in its own section). -/
inductive PacketV where
  | blockChange (block : BlockXyz) (typeId : Nat) (blockData : Nat)
  | entityDestroy (entityId : Int)
  | preChunk (loc : ChunkXz) (mode : Nat)
  | mapChunk (blocks : List Nat) (blockData : List Nat)
      (blockLight : List Nat) (skyLight : List Nat)
deriving Repr, DecidableEq

/-- Embeds the `Chunk` struct fields used by the verified operations. -/
structure Chunk where
  loc : ChunkXz
  blocks : List Nat
  blockData : List Nat
  blockLight : List Nat
  skyLight : List Nat
  entities : List EntityM
  tileEntities : List Nat
  cachedPacket : Option PacketV
  subscribers : List Int
  storeDirty : Bool
deriving Repr, DecidableEq

/-- Embeds `Chunk.reqMulticastPlayers`: transmit the packet to every
subscriber whose entity id differs from `exclude`. -/
def reqMulticastPlayers (c : Chunk) (exclude : Int) (pkt : PacketV) :
    List (Int × PacketV) :=
  (c.subscribers.filter (fun s => decide (s ≠ exclude))).map (fun s => (s, pkt))

/-- Embeds `Chunk.setBlock`: invalidate the cached packet, mark the store
dirty, write the block id and the block-data nibble, drop any tile entity at
the index, and multicast a block-change packet to all subscribers (exclude
id -1, which no subscriber carries).  The `subLoc` argument of the Go
function is unused by its body. -/
def setBlock (c : Chunk) (blockLoc : BlockXyz) (_subLoc : SubChunkXyz)
    (index : Nat) (blockType : Nat) (blockData : Nat) :
    Chunk × List (Int × PacketV) :=
  let c1 : Chunk :=
    { c with
      cachedPacket := none
      storeDirty := true
      blocks := c.blocks.set index blockType
      blockData := nibbleSet c.blockData index blockData
      tileEntities := c.tileEntities.filter (fun i => decide (i ≠ index)) }
  (c1, reqMulticastPlayers c1 (-1) (.blockChange blockLoc blockType blockData))

/-- Embeds `Chunk.chunkPacket`: return the cached map-chunk packet, building
it from the current block arrays when the cache is invalid. -/
def chunkPacket (c : Chunk) : PacketV × Chunk :=
  match c.cachedPacket with
  | some p => (p, c)
  | none =>
    let p := PacketV.mapChunk c.blocks c.blockData c.blockLight c.skyLight
    (p, { c with cachedPacket := some p })

/-- Embeds `Chunk.getBlockIndexByBlockXyz`: convert to chunk-local
coordinates, fail when the position is not within this chunk or the
sub-chunk coordinates are invalid. -/
def getBlockIndexByBlockXyz (c : Chunk) (blockLoc : BlockXyz) :
    Option (Nat × SubChunkXyz) :=
  if blockLoc.ToChunkLocal.1.x ≠ c.loc.x ∨
      blockLoc.ToChunkLocal.1.z ≠ c.loc.z then
    none
  else
    match blockLoc.ToChunkLocal.2.BlockIndex with
    | none => none
    | some index => some (index, blockLoc.ToChunkLocal.2)

/-- Embeds `Chunk.BlockQuery`: for an in-chunk position read the block id
from this chunk (solid default on a bad index); otherwise consult the
cross-shard query (solid default when the block is unknown).  The
cross-shard path (`chunk.shard.blockQuery`) runs in shard code not among the
given sources and enters the model as the function `crossQuery`. -/
def BlockQuery (reg : BlockRegistry)
    (crossQuery : ChunkXz → SubChunkXyz → Option Nat) (c : Chunk)
    (blockLoc : BlockXyz) : Bool × Bool :=
  if blockLoc.ToChunkLocal.1.x = c.loc.x ∧
      blockLoc.ToChunkLocal.1.z = c.loc.z then
    match blockLoc.ToChunkLocal.2.BlockIndex with
    | none => (true, false)
    | some index => (solidDefault reg (c.blocks.getD index 0), true)
  else
    match crossQuery blockLoc.ToChunkLocal.1 blockLoc.ToChunkLocal.2 with
    | none => (true, false)
    | some btid => (solidDefault reg btid, false)

/-- Result of one `spawnTick`: the updated chunk, the entity ids passed to
`entityMgr.RemoveEntityById`, the `ReqTransferEntity(chunkLoc, entity)`
requests issued, and the packets multicast to subscribers. -/
structure SpawnTickResult where
  chunk : Chunk
  removedFromMgr : List Int
  transfers : List (ChunkXz × EntityM)
  sends : List (Int × PacketV)
deriving Repr, DecidableEq

/-- Embeds `Chunk.spawnTick`: nothing happens on an empty entity set;
otherwise every entity whose `Tick` returned true is removed from the
chunk's entity set - via `removeEntity` (entity-manager removal plus an
entity-destroy multicast) when its Y position is at most 0, and otherwise by
deletion followed by `ReqTransferEntity` to the chunk at its position
(routed through `clientForShard`, which lives in shard code not among the
given sources and enters the model as `shardHasClient`).  Entities whose
`Tick` returned false stay.  The store-dirty flag is set. -/
def spawnTick (shardHasClient : ShardXz → Bool) (c : Chunk) :
    SpawnTickResult :=
  if c.entities.isEmpty then
    ⟨c, [], [], []⟩
  else
    let fallen := c.entities.filter
      (fun e => e.tickMoved && decide (e.pos.y ≤ 0))
    let outgoing := c.entities.filter
      (fun e => e.tickMoved && !decide (e.pos.y ≤ 0))
    let remaining := c.entities.filter (fun e => !e.tickMoved)
    { chunk := { c with entities := remaining, storeDirty := true }
      removedFromMgr := fallen.map (·.id)
      transfers :=
        (outgoing.filter
          (fun e => shardHasClient e.pos.ToChunkXz.ToShardXz)).map
          (fun e => (e.pos.ToChunkXz, e))
      sends := fallen.flatMap
        (fun e => reqMulticastPlayers c (-1) (.entityDestroy e.id)) }

end CM

namespace CM

theorem blockIndex_lt {s : SubChunkXyz} {index : Nat}
    (h : s.BlockIndex = some index) : index < 32768 := by
  unfold SubChunkXyz.BlockIndex at h
  split at h
  · rename_i hr
    injection h with h
    omega
  · exact absurd h (by simp)

theorem getD_set_self {l : List Nat} {i : Nat} {a : Nat} (h : i < l.length) :
    (l.set i a).getD i 0 = a := by
  simp [List.getD_eq_getElem?_getD, List.getElem?_set_self h]

theorem nibbleGet_nibbleSet {arr : List Nat} {i v : Nat}
    (h : i / 2 < arr.length) :
    nibbleGet (nibbleSet arr i v) i = v % 16 := by
  unfold nibbleGet nibbleSet
  rw [getD_set_self h]
  by_cases hp : i % 2 = 0
  · rw [if_pos hp, if_pos hp]
    omega
  · rw [if_neg hp, if_neg hp]
    omega

theorem getBlockIndex_elim {c : Chunk} {p : BlockXyz} {index : Nat}
    {subLoc : SubChunkXyz}
    (h : getBlockIndexByBlockXyz c p = some (index, subLoc)) :
    p.ToChunkLocal.1.x = c.loc.x ∧ p.ToChunkLocal.1.z = c.loc.z ∧
      p.ToChunkLocal.2.BlockIndex = some index ∧ subLoc = p.ToChunkLocal.2 := by
  unfold getBlockIndexByBlockXyz at h
  split at h
  · exact absurd h (by simp)
  · rename_i hloc
    push_neg at hloc
    split at h
    · exact absurd h (by simp)
    · rename_i idx hsome
      injection h with h
      injection h with h1 h2
      exact ⟨hloc.1, hloc.2, h1 ▸ hsome, h2.symm⟩

theorem blockQuery_in_chunk {reg : BlockRegistry}
    {crossQuery : ChunkXz → SubChunkXyz → Option Nat} {c : Chunk}
    {p : BlockXyz} {index : Nat}
    (hlx : p.ToChunkLocal.1.x = c.loc.x)
    (hlz : p.ToChunkLocal.1.z = c.loc.z)
    (hbi : p.ToChunkLocal.2.BlockIndex = some index) :
    BlockQuery reg crossQuery c p =
      (solidDefault reg (c.blocks.getD index 0), true) := by
  unfold BlockQuery
  rw [if_pos ⟨hlx, hlz⟩, hbi]

/-- C2: after `setBlock(p, id, data)` on an in-range position `p` of the
chunk, the block-id array holds `id` at the index of `p` and the block-data
array holds `data`; the cached map-chunk packet is invalidated and the next
`chunkPacket` demand rebuilds it from the updated arrays; any tile entity at
the index is removed; the store-dirty flag is set; a block-change packet is
multicast to every subscriber (entity ids are allocated nonnegative, so none
matches the exclusion id -1); and a subsequent `BlockQuery(p)` returns
`(solid(id), isWithinChunk = true)`, where `solid` is the registry lookup
defaulting to solid for unknown ids. -/
theorem setBlock_blockQuery_spec (reg : BlockRegistry)
    (crossQuery : ChunkXz → SubChunkXyz → Option Nat) (c : Chunk)
    (p : BlockXyz) (index : Nat) (subLoc : SubChunkXyz)
    (blockType blockData : Nat)
    (hidx : getBlockIndexByBlockXyz c p = some (index, subLoc))
    (hblocks : c.blocks.length = 32768)
    (hbdata : c.blockData.length = 16384)
    (hdata : blockData < 16)
    (hsubs : ∀ s ∈ c.subscribers, 0 ≤ s) :
    (setBlock c p subLoc index blockType blockData).1.blocks.getD index 0 =
        blockType ∧
    nibbleGet (setBlock c p subLoc index blockType blockData).1.blockData
        index = blockData ∧
    (setBlock c p subLoc index blockType blockData).1.cachedPacket = none ∧
    (chunkPacket (setBlock c p subLoc index blockType blockData).1).1 =
      PacketV.mapChunk (c.blocks.set index blockType)
        (nibbleSet c.blockData index blockData) c.blockLight c.skyLight ∧
    index ∉ (setBlock c p subLoc index blockType blockData).1.tileEntities ∧
    (setBlock c p subLoc index blockType blockData).1.storeDirty = true ∧
    (∀ s ∈ c.subscribers,
      (s, PacketV.blockChange p blockType blockData) ∈
        (setBlock c p subLoc index blockType blockData).2) ∧
    BlockQuery reg crossQuery
        (setBlock c p subLoc index blockType blockData).1 p =
      (solidDefault reg blockType, true) := by
  obtain ⟨hlx, hlz, hbi, hsl⟩ := getBlockIndex_elim hidx
  have hlt : index < 32768 := blockIndex_lt hbi
  have hlen1 : index < c.blocks.length := by omega
  have hlen2 : index / 2 < c.blockData.length := by omega
  refine ⟨?_, ?_, rfl, rfl, ?_, rfl, ?_, ?_⟩
  · exact getD_set_self hlen1
  · show nibbleGet (nibbleSet c.blockData index blockData) index = blockData
    rw [nibbleGet_nibbleSet hlen2]
    omega
  · intro hmem
    have hmem2 : index ∈ c.tileEntities.filter (fun i => decide (i ≠ index)) :=
      hmem
    rw [List.mem_filter] at hmem2
    simp only [decide_eq_true_eq] at hmem2
    exact hmem2.2 rfl
  · intro s hs
    have hne : s ≠ -1 := by
      have := hsubs s hs
      omega
    show (s, PacketV.blockChange p blockType blockData) ∈
      (c.subscribers.filter (fun q => decide (q ≠ -1))).map
        (fun q => (q, PacketV.blockChange p blockType blockData))
    rw [List.mem_map]
    refine ⟨s, List.mem_filter.mpr ⟨hs, by simpa using hne⟩, rfl⟩
  · have hq : BlockQuery reg crossQuery
        (setBlock c p subLoc index blockType blockData).1 p =
        (solidDefault reg
          ((c.blocks.set index blockType).getD index 0), true) :=
      blockQuery_in_chunk hlx hlz hbi
    rw [hq, getD_set_self hlen1]

/-- Concrete block registry for the C2 witness: block id 1 is a known solid
block, everything else is unknown. -/
def regW : BlockRegistry := fun i => if i = 1 then some ⟨true⟩ else none

/-- Concrete chunk for the C2 witness: located at chunk `(0,0)`, full-size
zeroed arrays, a tile entity at index 6666, one subscriber with entity id 9. -/
def chunkW : Chunk :=
  { loc := ⟨0, 0⟩
    blocks := List.replicate 32768 0
    blockData := List.replicate 16384 0
    blockLight := []
    skyLight := []
    entities := []
    tileEntities := [6666]
    cachedPacket := some (.mapChunk [] [] [] [])
    subscribers := [9]
    storeDirty := false }

/-- Witness for C2 at block position `(3, 10, 4)` (index 6666) with block
id 1 and data 7. -/
theorem setBlock_blockQuery_spec_witness :
    6666 ∉ (setBlock chunkW ⟨3, 10, 4⟩ ⟨3, 10, 4⟩ 6666 1 7).1.tileEntities ∧
    (9, PacketV.blockChange ⟨3, 10, 4⟩ 1 7) ∈
      (setBlock chunkW ⟨3, 10, 4⟩ ⟨3, 10, 4⟩ 6666 1 7).2 ∧
    BlockQuery regW (fun _ _ => none)
        (setBlock chunkW ⟨3, 10, 4⟩ ⟨3, 10, 4⟩ 6666 1 7).1 ⟨3, 10, 4⟩ =
      (true, true) := by
  have h := setBlock_blockQuery_spec regW (fun _ _ => none) chunkW
    ⟨3, 10, 4⟩ 6666 ⟨3, 10, 4⟩ 1 7
    (by decide)
    (by simp only [chunkW, List.length_replicate])
    (by simp only [chunkW, List.length_replicate])
    (by decide)
    (by decide)
  refine ⟨h.2.2.2.2.1, h.2.2.2.2.2.2.1 9 (by decide), ?_⟩
  have hs : solidDefault regW 1 = true := by decide
  rw [h.2.2.2.2.2.2.2, hs]

end CM

namespace CM

theorem spawnTick_not_empty {shardHasClient : ShardXz → Bool} {c : Chunk}
    (hne : c.entities.isEmpty = false) :
    spawnTick shardHasClient c =
      { chunk := { c with
          entities := c.entities.filter (fun e => !e.tickMoved)
          storeDirty := true }
        removedFromMgr := (c.entities.filter
          (fun e => e.tickMoved && decide (e.pos.y ≤ 0))).map (·.id)
        transfers := ((c.entities.filter
            (fun e => e.tickMoved && !decide (e.pos.y ≤ 0))).filter
            (fun e => shardHasClient e.pos.ToChunkXz.ToShardXz)).map
            (fun e => (e.pos.ToChunkXz, e))
        sends := (c.entities.filter
          (fun e => e.tickMoved && decide (e.pos.y ≤ 0))).flatMap
          (fun e => reqMulticastPlayers c (-1) (.entityDestroy e.id)) } := by
  unfold spawnTick
  rw [hne]
  rfl

/-- C3 (amended): in `spawnTick`, every entity whose `Tick` returned true
with position Y at most 0 is removed from the chunk's entity set and from
the entity manager and is not transferred; every entity whose `Tick`
returned true with position Y above 0 is removed from the chunk's entity set
and routed via `ReqTransferEntity` to the chunk at its position - whether or
not that chunk-xz differs from the owning chunk's location (when it is the
same, the entity is transferred to its own chunk); an entity whose `Tick`
returned false stays in the entity set. -/
theorem spawnTick_spec (shardHasClient : ShardXz → Bool) (c : Chunk) :
    ∀ e ∈ c.entities,
      (e.tickMoved = true → e.pos.y ≤ 0 →
        e ∉ (spawnTick shardHasClient c).chunk.entities ∧
        e.id ∈ (spawnTick shardHasClient c).removedFromMgr ∧
        ∀ t ∈ (spawnTick shardHasClient c).transfers, t.2 ≠ e) ∧
      (e.tickMoved = true → 0 < e.pos.y →
        e ∉ (spawnTick shardHasClient c).chunk.entities ∧
        (shardHasClient e.pos.ToChunkXz.ToShardXz = true →
          (e.pos.ToChunkXz, e) ∈ (spawnTick shardHasClient c).transfers)) ∧
      (e.tickMoved = false → e ∈ (spawnTick shardHasClient c).chunk.entities) := by
  intro e he
  have hne : c.entities.isEmpty = false := by
    cases hl : c.entities with
    | nil => rw [hl] at he; exact absurd he (by simp)
    | cons a l => simp [List.isEmpty]
  rw [spawnTick_not_empty hne]
  refine ⟨?_, ?_, ?_⟩
  · intro hmov hy
    refine ⟨?_, ?_, ?_⟩
    · intro hmem
      rw [List.mem_filter] at hmem
      rw [hmov] at hmem
      simp at hmem
    · rw [List.mem_map]
      refine ⟨e, ?_, rfl⟩
      rw [List.mem_filter]
      exact ⟨he, by simp [hmov, hy]⟩
    · intro t ht
      rw [List.mem_map] at ht
      obtain ⟨e2, he2, hte⟩ := ht
      rw [List.mem_filter, List.mem_filter] at he2
      intro habs
      have h2 : t.2 = e2 := by rw [← hte]
      rw [habs] at h2
      have := he2.1.2
      rw [← h2, hmov] at this
      simp at this
      exact absurd hy (by simpa using this)
  · intro hmov hy
    refine ⟨?_, ?_⟩
    · intro hmem
      rw [List.mem_filter] at hmem
      rw [hmov] at hmem
      simp at hmem
    · intro hcl
      rw [List.mem_map]
      refine ⟨e, ?_, rfl⟩
      rw [List.mem_filter, List.mem_filter]
      refine ⟨⟨he, ?_⟩, hcl⟩
      simp only [hmov, Bool.true_and, Bool.not_eq_eq_eq_not, Bool.not_true]
      simpa using hy
  · intro hmov
    rw [List.mem_filter]
    exact ⟨he, by simp [hmov]⟩

/-- Concrete chunk for the C3 counterexample and witness: one entity with
id 7 whose `Tick` returned true and whose position `(1, 5, 1)` lies in the
chunk's own column `(0, 0)`. -/
def spawnTickChunkW : Chunk :=
  { loc := ⟨0, 0⟩
    blocks := []
    blockData := []
    blockLight := []
    skyLight := []
    entities := [⟨7, true, ⟨1, 5, 1⟩⟩]
    tileEntities := []
    cachedPacket := none
    subscribers := []
    storeDirty := false }

/-- Counterexample for C3 as stated: the entity of `spawnTickChunkW` ticked
true, its Y is above 0, and its chunk-xz equals the owning chunk's location,
so per the claim it should stay in the chunk's entity set; the code instead
removes it and issues a `ReqTransferEntity` to the chunk's own location. -/
theorem spawnTick_claim_counterexample :
    (⟨7, true, ⟨1, 5, 1⟩⟩ : EntityM).pos.ToChunkXz = spawnTickChunkW.loc ∧
    (⟨7, true, ⟨1, 5, 1⟩⟩ : EntityM) ∈ spawnTickChunkW.entities ∧
    (⟨7, true, ⟨1, 5, 1⟩⟩ : EntityM).tickMoved = true ∧
    (0 : Rat) < (⟨7, true, ⟨1, 5, 1⟩⟩ : EntityM).pos.y ∧
    (⟨7, true, ⟨1, 5, 1⟩⟩ : EntityM) ∉
      (spawnTick (fun _ => true) spawnTickChunkW).chunk.entities ∧
    (⟨0, 0⟩, (⟨7, true, ⟨1, 5, 1⟩⟩ : EntityM)) ∈
      (spawnTick (fun _ => true) spawnTickChunkW).transfers := by
  decide

/-- Witness for C3 (amended) on `spawnTickChunkW`. -/
theorem spawnTick_spec_witness :
    (⟨7, true, ⟨1, 5, 1⟩⟩ : EntityM) ∉
      (spawnTick (fun _ => true) spawnTickChunkW).chunk.entities ∧
    ((⟨7, true, ⟨1, 5, 1⟩⟩ : EntityM).pos.ToChunkXz,
        (⟨7, true, ⟨1, 5, 1⟩⟩ : EntityM)) ∈
      (spawnTick (fun _ => true) spawnTickChunkW).transfers := by
  have h := spawnTick_spec (fun _ => true) spawnTickChunkW
    ⟨7, true, ⟨1, 5, 1⟩⟩ (by decide)
  have h2 := (h.2.1) rfl (by decide)
  exact ⟨h2.1, h2.2 rfl⟩

end CM

namespace CM

/-! ## Player session (player package)

Embeds `Player.handleMove` and the keep-alive machine
(`Player.pingReceived`, `Player.pingTimeout`, `Player.pingNew`) of
player.go.  The types-package distance check and the chunk-subscription
tracker of this source generation are not among the given files and are
modelled from the spec. -/

theorem ratSub_num_den (p q : ℚ) :
    p - q = ((p.num * q.den - q.num * p.den : ℤ) : ℚ) /
      ((p.den : ℚ) * (q.den : ℚ)) := by
  rw [eq_div_iff (by positivity)]
  push_cast
  nth_rewrite 1 [← Rat.num_div_den p, ← Rat.num_div_den q]
  field_simp
  ring

/-- Modelled from the spec: `AbsXyz.IsWithinDistanceOf` lives in the types
package of this source generation, which is not among the given files; per
the spec it checks that one position is within `d` blocks of the other
(Euclidean distance).  It is phrased by integer cross-multiplication of the
rational coordinates so that it stays kernel-computable;
`IsWithinDistanceOf_iff` shows it equivalent to the distance inequality. -/
def AbsXyz.IsWithinDistanceOf (a b : AbsXyz) (d : Int) : Bool :=
  decide
    ((a.x.num * b.x.den - b.x.num * a.x.den) ^ 2 *
        ((a.y.den * b.y.den) ^ 2 * (a.z.den * b.z.den) ^ 2) +
      (a.y.num * b.y.den - b.y.num * a.y.den) ^ 2 *
        ((a.x.den * b.x.den) ^ 2 * (a.z.den * b.z.den) ^ 2) +
      (a.z.num * b.z.den - b.z.num * a.z.den) ^ 2 *
        ((a.x.den * b.x.den) ^ 2 * (a.y.den * b.y.den) ^ 2) ≤
      d ^ 2 *
        ((a.x.den * b.x.den) ^ 2 * (a.y.den * b.y.den) ^ 2 *
          (a.z.den * b.z.den) ^ 2))

theorem IsWithinDistanceOf_iff (a b : AbsXyz) (d : Int) :
    (a.IsWithinDistanceOf b d = true) ↔
      (a.x - b.x) ^ 2 + (a.y - b.y) ^ 2 + (a.z - b.z) ^ 2 ≤ (d : ℚ) ^ 2 := by
  unfold AbsXyz.IsWithinDistanceOf
  rw [decide_eq_true_eq]
  rw [ratSub_num_den a.x b.x, ratSub_num_den a.y b.y, ratSub_num_den a.z b.z]
  rw [div_pow, div_pow, div_pow,
    div_add_div _ _ (by positivity) (by positivity),
    div_add_div _ _ (by positivity) (by positivity),
    div_le_iff₀ (by positivity)]
  constructor
  · intro h
    have h2 := (Int.cast_le (R := ℚ)).mpr h
    push_cast at h2 ⊢
    linarith
  · intro h
    rw [← Int.cast_le (R := ℚ)]
    push_cast at h ⊢
    linarith

/-- List of the chunk locations of the `radius`-square around `center`
(ignoring the nearest-first ordering of `orderedChunkSquare`, which the
subscription-set statements do not depend on). -/
def chunkSquare (center : ChunkXz) (radius : Int) : List ChunkXz :=
  (intRange (center.x - radius) (center.x + radius)).flatMap fun x =>
    (intRange (center.z - radius) (center.z + radius)).map fun z => ⟨x, z⟩

theorem mem_chunkSquare {center : ChunkXz} {r : Int} {p : ChunkXz} :
    p ∈ chunkSquare center r ↔ inSquare center r p := by
  unfold chunkSquare inSquare
  simp only [List.mem_flatMap, List.mem_map, mem_intRange]
  constructor
  · rintro ⟨x, ⟨h1, h2⟩, z, ⟨⟨h3, h4⟩, rfl⟩⟩
    exact ⟨h1, h2, h3, h4⟩
  · rintro ⟨h1, h2, h3, h4⟩
    exact ⟨p.x, ⟨h1, h2⟩, p.z, ⟨h3, h4⟩, rfl⟩

/-- Chunk-subscription state of a player session: the chunk the player is
currently in and the set of subscribed chunk locations (the union of the
per-shard subscriptions). -/
structure SubsState where
  curChunkLoc : ChunkXz
  subscribed : List ChunkXz
deriving Repr, DecidableEq

/-- Modelled from the spec: the chunk-subscription tracker of this source
generation is not among the given files.  Per the spec, on a move that
crosses a chunk boundary the session subscribes to
`squareDifference(newChunkLoc, curChunkLoc, ChunkRadius)` and unsubscribes
from `squareDifference(curChunkLoc, newChunkLoc, ChunkRadius)`; a move
within the same chunk only forwards the position to the hosting shard. -/
def SubsState.Move (subs : SubsState) (newLoc : AbsXyz) : SubsState :=
  if newLoc.ToChunkXz.x ≠ subs.curChunkLoc.x ∨
      newLoc.ToChunkXz.z ≠ subs.curChunkLoc.z then
    { curChunkLoc := newLoc.ToChunkXz
      subscribed :=
        (subs.subscribed.filter (fun q =>
          decide (q ∉ squareDifference subs.curChunkLoc newLoc.ToChunkXz
            ChunkRadius))) ++
        squareDifference newLoc.ToChunkXz subs.curChunkLoc ChunkRadius }
  else
    subs

/-- Player-session state touched by `Player.handleMove`. -/
structure PlayerM where
  spawnComplete : Bool
  position : AbsXyz
  height : Rat
  subs : SubsState
deriving Repr, DecidableEq

/-- Embeds `Player.handleMove(position, stance)`: ignore the packet until
the spawn completes; discard it when the new position is not within 10
blocks of the prior one; otherwise update the position, set the height to
`stance - position.Y` and move the chunk subscriptions. -/
def handleMove (p : PlayerM) (position : AbsXyz) (stance : Rat) : PlayerM :=
  if !p.spawnComplete then
    p
  else if !(p.position.IsWithinDistanceOf position 10) then
    p
  else
    { p with
      position := position
      height := stance - position.y
      subs := p.subs.Move position }

theorem subsMove_subscribed (subs : SubsState) (newLoc : AbsXyz)
    (hinv : ∀ q, q ∈ subs.subscribed ↔
      inSquare subs.curChunkLoc ChunkRadius q) :
    (∀ q, q ∈ (subs.Move newLoc).subscribed ↔
      inSquare newLoc.ToChunkXz ChunkRadius q) ∧
    (subs.Move newLoc).curChunkLoc = newLoc.ToChunkXz := by
  unfold SubsState.Move
  by_cases hc : newLoc.ToChunkXz.x ≠ subs.curChunkLoc.x ∨
      newLoc.ToChunkXz.z ≠ subs.curChunkLoc.z
  · rw [if_pos hc]
    refine ⟨?_, rfl⟩
    intro q
    rw [List.mem_append, List.mem_filter, hinv q]
    simp only [decide_eq_true_eq, mem_squareDifference]
    constructor
    · rintro (⟨hin, hnd⟩ | ⟨hnew, _⟩)
      · by_contra hnot
        exact hnd ⟨hin, hnot⟩
      · exact hnew
    · intro hnew
      by_cases hcur : inSquare subs.curChunkLoc ChunkRadius q
      · exact Or.inl ⟨hcur, fun hd => hd.2 hnew⟩
      · exact Or.inr ⟨hnew, hcur⟩
  · rw [if_neg hc]
    push_neg at hc
    have heq : newLoc.ToChunkXz = subs.curChunkLoc := by
      cases hx : newLoc.ToChunkXz with
      | mk a b =>
        cases hy : subs.curChunkLoc with
        | mk a2 b2 =>
          rw [hx, hy] at hc
          simp only [ChunkXz.mk.injEq]
          exact ⟨hc.1, hc.2⟩
    rw [heq]
    exact ⟨hinv, rfl⟩

/-- C5: for every `PlayerPosition` or `PlayerPositionLook` packet handled
after spawn completes (both dispatch to `handleMove`): when the new position
is within 10 blocks of the prior position - an exact Euclidean-distance
condition, as the first conjunct states - the player position is updated,
the height becomes `stance - position.Y`, and the chunk subscriptions are
recomputed for the new position (the subscription set becomes the
`ChunkRadius`-square around the new position's chunk, given that it was the
square around the prior chunk); otherwise the packet is discarded and the
player state - position, height and chunk subscriptions - is unchanged. -/
theorem handleMove_spec (p : PlayerM) (position : AbsXyz) (stance : Rat)
    (hspawn : p.spawnComplete = true)
    (hinv : ∀ q, q ∈ p.subs.subscribed ↔
      inSquare p.subs.curChunkLoc ChunkRadius q) :
    (∀ a b : AbsXyz, (a.IsWithinDistanceOf b 10 = true) ↔
      (a.x - b.x) ^ 2 + (a.y - b.y) ^ 2 + (a.z - b.z) ^ 2 ≤ 100) ∧
    (p.position.IsWithinDistanceOf position 10 = true →
      (handleMove p position stance).position = position ∧
      (handleMove p position stance).height = stance - position.y ∧
      (handleMove p position stance).subs.curChunkLoc =
        position.ToChunkXz ∧
      (∀ q, q ∈ (handleMove p position stance).subs.subscribed ↔
        inSquare position.ToChunkXz ChunkRadius q)) ∧
    (p.position.IsWithinDistanceOf position 10 = false →
      handleMove p position stance = p) := by
  refine ⟨?_, ?_, ?_⟩
  · intro a b
    rw [IsWithinDistanceOf_iff]
    norm_num
  · intro hdist
    have hif : handleMove p position stance =
        { p with
          position := position
          height := stance - position.y
          subs := p.subs.Move position } := by
      unfold handleMove
      rw [hspawn, hdist]
      simp
    rw [hif]
    have hm := subsMove_subscribed p.subs position hinv
    exact ⟨rfl, rfl, hm.2, hm.1⟩
  · intro hdist
    unfold handleMove
    rw [hspawn, hdist]
    simp

/-- Witness for C5: a player at the origin with the radius-10 square
subscribed accepts a move to `(3, 4, 0)` (distance 5) and keeps its state on
a reported move to `(30, 0, 0)` (distance 30). -/
theorem handleMove_spec_witness :
    (handleMove
        ⟨true, ⟨0, 0, 0⟩, 0, ⟨⟨0, 0⟩, chunkSquare ⟨0, 0⟩ 10⟩⟩
        ⟨3, 4, 0⟩ 6).position = ⟨3, 4, 0⟩ ∧
    handleMove
        ⟨true, ⟨0, 0, 0⟩, 0, ⟨⟨0, 0⟩, chunkSquare ⟨0, 0⟩ 10⟩⟩
        ⟨30, 0, 0⟩ 2 =
      ⟨true, ⟨0, 0, 0⟩, 0, ⟨⟨0, 0⟩, chunkSquare ⟨0, 0⟩ 10⟩⟩ := by
  have h1 := handleMove_spec
    ⟨true, ⟨0, 0, 0⟩, 0, ⟨⟨0, 0⟩, chunkSquare ⟨0, 0⟩ 10⟩⟩
    ⟨3, 4, 0⟩ 6 rfl (fun q => mem_chunkSquare)
  have h2 := handleMove_spec
    ⟨true, ⟨0, 0, 0⟩, 0, ⟨⟨0, 0⟩, chunkSquare ⟨0, 0⟩ 10⟩⟩
    ⟨30, 0, 0⟩ 2 rfl (fun q => mem_chunkSquare)
  exact ⟨(h1.2.1 (by decide)).1, h2.2.2 (by decide)⟩

end CM

namespace CM

/-! ## Keep-alive state machine (player package)

Embeds `Player.pingReceived`, `Player.pingTimeout` and `Player.pingNew`.
Time values are int64 nanoseconds.  `player.Stop()` calls become the
`stopped` flag of the outcome; `game.BroadcastPacket(PacketPlayerListItem)`
calls become entries of `broadcasts` recording the ping milliseconds;
replacing `ping.timer` with `time.NewTimer(d)` becomes `timerReset = some d`;
the keep-alive packet sent by `pingNew` becomes `sentKeepAlive`. -/

/-- Value of the Go constant `PingTimeout` (60 s) in nanoseconds. -/
def PingTimeout : Int := 60000000000

/-- Value of the Go constant `PingInterval` (20 s) in nanoseconds. -/
def PingInterval : Int := 20000000000

/-- Conversion of a Go int64 value to int16 (two's complement wrap),
used by `int16(latency.Nanoseconds()/1e6)`. -/
def int16OfInt (i : Int) : Int := (i + 32768) % 65536 - 32768

/-- The `ping` sub-struct of `Player`: whether a ping is outstanding, the id
sent with it (0 when none), and the send timestamp. -/
structure PingState where
  running : Bool
  id : Int
  timestamp : Int
deriving Repr, DecidableEq

/-- Observable outcome of one keep-alive event handler. -/
structure PingOutcome where
  st : PingState
  stopped : Bool
  broadcasts : List Int
  timerReset : Option Int
  sentKeepAlive : Option Int
deriving Repr, DecidableEq

/-- Embeds `Player.pingNew`: start a new ping with a random non-zero id (the
random draw enters the model as `randId`; a drawn 0 is replaced by 1),
record the send time, transmit a keep-alive packet, and arm the
`PingTimeout` timer.  When a ping is already running it only logs. -/
def pingNew (st : PingState) (randId : Int) (now : Int) : PingOutcome :=
  if st.running then
    ⟨st, false, [], none, none⟩
  else
    ⟨⟨true, if randId = 0 then 1 else randId, now⟩, false, [],
      some PingTimeout, some (if randId = 0 then 1 else randId)⟩

/-- Embeds `Player.pingTimeout`: with a ping outstanding the timer expiry
terminates the player (`Stop`); otherwise a new ping is started. -/
def pingTimeout (st : PingState) (randId : Int) (now : Int) : PingOutcome :=
  if st.running then
    ⟨st, true, [], none, none⟩
  else
    pingNew st randId now

/-- Embeds `Player.pingReceived(id)` with the `player_ping_no_check` flag as
`noCheck`: id 0 is a client-initiated heartbeat and is ignored; in strict
mode a keep-alive with no ping outstanding or with a mismatching id
terminates the player; a valid keep-alive computes the latency, broadcasts a
player-list-item update when the latency is nonnegative and below
`PingTimeout`, returns the machine to idle and arms the `PingInterval`
timer. -/
def pingReceived (noCheck : Bool) (st : PingState) (id : Int) (now : Int) :
    PingOutcome :=
  if id = 0 then
    ⟨st, false, [], none, none⟩
  else if noCheck ∧ !st.running then
    ⟨st, false, [], none, none⟩
  else if !noCheck ∧ !st.running then
    ⟨st, true, [], none, none⟩
  else if !noCheck ∧ id ≠ st.id then
    ⟨st, true, [], none, none⟩
  else
    ⟨⟨false, 0, st.timestamp⟩, false,
      (if 0 ≤ now - st.timestamp ∧ now - st.timestamp < PingTimeout then
        [int16OfInt ((now - st.timestamp).tdiv 1000000)]
      else
        []),
      some PingInterval, none⟩

/-- Counterexample for C6 as stated: with a ping outstanding (id 5 sent at
time 0), the matching keep-alive arriving exactly at the 60 s timeout
returns the machine to idle but broadcasts no player-list-item update - the
code broadcasts only when the latency is nonnegative and strictly below
`PingTimeout`. -/
theorem pingReceived_claim_counterexample :
    (pingReceived false ⟨true, 5, 0⟩ 5 PingTimeout).st.running = false ∧
    (pingReceived false ⟨true, 5, 0⟩ 5 PingTimeout).stopped = false ∧
    (pingReceived false ⟨true, 5, 0⟩ 5 PingTimeout).broadcasts = [] := by
  decide

/-- C6 (amended): in the `WaitingForPong` state (a ping outstanding, strict
checking): a client keep-alive with id 0 changes nothing; the matching
non-zero id returns the machine to idle (running false, id 0), arms the
`PingInterval` timer, and broadcasts a player-list-item update carrying the
computed latency exactly when that latency is nonnegative and below
`PingTimeout`; a mismatching non-zero id terminates the player; and expiry
of the ping timeout while the ping is outstanding terminates the player. -/
theorem pingReceived_pingTimeout_spec (st : PingState) (idIn now : Int)
    (hrun : st.running = true) :
    (pingReceived false st 0 now = ⟨st, false, [], none, none⟩) ∧
    (idIn ≠ 0 → idIn = st.id →
      (pingReceived false st idIn now).st.running = false ∧
      (pingReceived false st idIn now).st.id = 0 ∧
      (pingReceived false st idIn now).stopped = false ∧
      (pingReceived false st idIn now).timerReset = some PingInterval ∧
      ((pingReceived false st idIn now).broadcasts =
        if 0 ≤ now - st.timestamp ∧ now - st.timestamp < PingTimeout then
          [int16OfInt ((now - st.timestamp).tdiv 1000000)]
        else
          [])) ∧
    (idIn ≠ 0 → idIn ≠ st.id →
      (pingReceived false st idIn now).stopped = true) ∧
    (∀ randId, (pingTimeout st randId now).stopped = true) := by
  refine ⟨rfl, ?_, ?_, ?_⟩
  · intro hne heq
    unfold pingReceived
    rw [if_neg hne, hrun]
    rw [if_neg (by simp), if_neg (by simp), if_neg (by simp [heq])]
    exact ⟨rfl, rfl, rfl, rfl, rfl⟩
  · intro hne hneid
    unfold pingReceived
    rw [if_neg hne, hrun]
    rw [if_neg (by simp), if_neg (by simp), if_pos (by simp [hneid])]
  · intro randId
    unfold pingTimeout
    rw [hrun]
    simp

/-- Witness for C6 (amended) in the state with ping id 5 outstanding since
time 0. -/
theorem pingReceived_pingTimeout_spec_witness :
    (pingReceived false ⟨true, 5, 0⟩ 0 7 = ⟨⟨true, 5, 0⟩, false, [], none, none⟩) ∧
    (pingReceived false ⟨true, 5, 0⟩ 5 1000000000).st.running = false ∧
    (pingReceived false ⟨true, 5, 0⟩ 9 7).stopped = true ∧
    (pingTimeout ⟨true, 5, 0⟩ 3 7).stopped = true := by
  have h := pingReceived_pingTimeout_spec ⟨true, 5, 0⟩ 5 1000000000 rfl
  have h2 := pingReceived_pingTimeout_spec ⟨true, 5, 0⟩ 9 7 rfl
  refine ⟨?_, (h.2.1 (by decide) rfl).1, h2.2.2.1 (by decide) (by decide), ?_⟩
  · have h3 := pingReceived_pingTimeout_spec ⟨true, 5, 0⟩ 5 7 rfl
    exact h3.1
  · exact h2.2.2.2 3

end CM

namespace CM

/-! ## Packet codec (proto package)

Embeds the byte-level serializer.  The wire is a `List Nat` of byte values;
an in-memory Go string is modelled as its list of Unicode code points
(runes).  Multi-byte integers are written big-endian.  Compression (zlib of
`compress/zlib`, used by the chunk-data field) is Go standard-library code
external to the repository; it enters the model as an abstract function. -/

/-- Error values of the proto package (`os.NewError` values and the typed
ids), together with the two `io` errors that `io.ReadFull` can surface
through the serializer (`io.EOF` for an empty read, `io.ErrUnexpectedEOF`
for a short read). -/
inductive ProtoError where
  | unknownPacketType
  | unexpectedPacketId (id : Nat)
  | lengthNegative
  | strTooLong
  | badPacketData
  | badChunkDataSize
  | mismatchingValues
  | internal
  | ioEOF
  | ioUnexpectedEOF
deriving Repr, DecidableEq

/-- Big-endian bytes of `uint16(v)` (`PacketSerializer.writeUint16`). -/
def u16be (v : Nat) : List Nat := [v % 65536 / 256, v % 256]

/-- Big-endian bytes of `uint32(v)` (`PacketSerializer.writeUint32`). -/
def u32be (v : Nat) : List Nat :=
  [v % 4294967296 / 16777216, v % 16777216 / 65536, v % 65536 / 256, v % 256]

/-- Signed 16-bit reinterpretation of a Go uint16 value. -/
def int16OfNat (n : Nat) : Int :=
  if n % 65536 < 32768 then (n % 65536 : Nat) else (n % 65536 : Nat) - 65536

/-- Signed 32-bit reinterpretation of a Go uint32 value. -/
def int32OfNat (n : Nat) : Int :=
  if n % 4294967296 < 2147483648 then (n % 4294967296 : Nat)
  else (n % 4294967296 : Nat) - 4294967296

/-- Big-endian bytes of a Go int16 value (two's complement). -/
def i16be (v : Int) : List Nat := u16be (v % 65536).toNat

/-- Big-endian bytes of a Go int32 value (two's complement). -/
def i32be (v : Int) : List Nat := u32be (v % 4294967296).toNat

/-- Value of the Go constant `maxUcs2Char` (0xffff). -/
def maxUcs2Char : Nat := 65535

/-- Value of the Go constant `ucs2ReplChar` (0xfffd). -/
def ucs2ReplChar : Nat := 65533

/-- Replacement applied per rune by `writeString16`: code points above the
BMP become U+FFFD. -/
def ucs2Repl (cp : Nat) : Nat := if cp > maxUcs2Char then ucs2ReplChar else cp

/-- Number of bytes of the UTF-8 encoding of one code point.  A Go string
stores UTF-8, and `reflect.Value.Len` of a string is its byte count. -/
def utf8Len (cp : Nat) : Nat :=
  if cp < 128 then 1 else if cp < 2048 then 2 else if cp < 65536 then 3 else 4

/-- UTF-8 byte length of an in-memory string given as its code points. -/
def utf8ByteLength (s : List Nat) : Nat := (s.map utf8Len).sum

/-- Embeds `PacketSerializer.writeString16` (serialize.go second
generation): write `uint16(utf8.RuneCountInString(v))` - the code-point
count modulo 2^16, with no length check - then each rune as a 2-byte UCS-2
code, replacing runes above `maxUcs2Char` by `ucs2ReplChar`.  The scratch
buffering of the Go code does not change the bytes produced. -/
def writeString16 (s : List Nat) : Except ProtoError (List Nat) :=
  .ok (u16be s.length ++ (s.map ucs2Repl).flatMap u16be)

/-- Modelled from the spec: `decodeUtf8` of the first serializer generation
is not among the given sources; per the spec the in-memory UTF-8 string is
re-encoded to UCS-2 with lossy U+FFFD substitution above the BMP. -/
def decodeUtf8 (s : List Nat) : List Nat := s.map ucs2Repl

/-- Embeds the `reflect.String` case of `PacketSerializer.writeData` of the
first serializer generation: return `StringTooLong` when `value.Len()` (the
UTF-8 byte length) exceeds `math.MaxInt16`, otherwise write that byte length
as the uint16 prefix followed by the UCS-2 codes from `decodeUtf8`. -/
def writeDataString (s : List Nat) : Except ProtoError (List Nat) :=
  if utf8ByteLength s > 32767 then
    .error .strTooLong
  else
    .ok (u16be (utf8ByteLength s) ++ (decodeUtf8 s).flatMap u16be)

/-- Decodes a UCS-2BE byte stream back into code points (big-endian pairs);
the inverse used to state what `writeString16` put on the wire. -/
def ucs2Pairs : List Nat → List Nat
  | hi :: lo :: rest => (hi * 256 + lo) :: ucs2Pairs rest
  | _ => []

/-- Discriminator for `Except` results (Go `err == nil`). -/
def exceptIsOk {α : Type} : Except ProtoError α → Bool
  | .ok _ => true
  | .error _ => false

/-- Bytes of an `Except` result, empty on error. -/
def exceptBytes : Except ProtoError (List Nat) → List Nat
  | .ok bs => bs
  | .error _ => []

theorem ucs2Pairs_flatMap (cps : List Nat) (hlt : ∀ c ∈ cps, c < 65536) :
    ucs2Pairs (cps.flatMap u16be) = cps := by
  induction cps with
  | nil => rfl
  | cons c rest ih =>
    have hc : c < 65536 := hlt c (by simp)
    have hrest : ∀ x ∈ rest, x < 65536 := fun x hx => hlt x (by simp [hx])
    show ucs2Pairs (u16be c ++ rest.flatMap u16be) = c :: rest
    unfold u16be
    show (c % 65536 / 256 * 256 + c % 256) :: ucs2Pairs (rest.flatMap u16be)
      = c :: rest
    rw [ih hrest]
    congr 1
    omega

/-- Counterexample for C8 as stated: encoding a string of 32768 code points
(more than 32767) with `writeString16` does not return `StringTooLong`; the
function succeeds, writing the count modulo 2^16. -/
theorem writeString16_claim_counterexample :
    exceptIsOk (writeString16 (List.replicate 32768 97)) = true ∧
    writeString16 (List.replicate 32768 97) ≠
      Except.error ProtoError.strTooLong := by
  constructor
  · rfl
  · intro h
    exact Except.noConfusion h

/-- C8 (amended): `writeString16` never returns `StringTooLong` - it writes
the code-point count modulo 2^16 as the length prefix - and the code points
it puts on the wire are the in-memory ones with every character above
U+FFFF replaced by U+FFFD; the legacy `writeData` string case returns
`StringTooLong` exactly when the UTF-8 byte length (not the code-point
count) exceeds 32767. -/
theorem writeString16_spec :
    (∀ s : List Nat, exceptIsOk (writeString16 s) = true) ∧
    (∀ s : List Nat,
      ucs2Pairs ((exceptBytes (writeString16 s)).drop 2) = s.map ucs2Repl) ∧
    (∀ cp : Nat, maxUcs2Char < cp → ucs2Repl cp = ucs2ReplChar) ∧
    (∀ s : List Nat,
      writeDataString s = .error .strTooLong ↔ 32767 < utf8ByteLength s) := by
  refine ⟨fun s => rfl, ?_, ?_, ?_⟩
  · intro s
    show ucs2Pairs ((u16be s.length ++ (s.map ucs2Repl).flatMap u16be).drop 2)
      = s.map ucs2Repl
    unfold u16be
    show ucs2Pairs ((s.map ucs2Repl).flatMap u16be) = s.map ucs2Repl
    refine ucs2Pairs_flatMap _ ?_
    intro c hc
    rw [List.mem_map] at hc
    obtain ⟨a, _, rfl⟩ := hc
    unfold ucs2Repl maxUcs2Char ucs2ReplChar
    split <;> omega
  · intro cp h
    unfold ucs2Repl
    rw [if_pos h]
  · intro s
    unfold writeDataString
    constructor
    · intro h
      by_cases hl : utf8ByteLength s > 32767
      · exact hl
      · rw [if_neg hl] at h
        exact absurd h (by simp)
    · intro h
      rw [if_pos h]

/-- Witness for C8 (amended): the three-code-point string
`[97, 120000, 98]` (one astral character) and a string of 16384 three-byte
runes for the legacy byte-length check. -/
theorem writeString16_spec_witness :
    ucs2Pairs ((exceptBytes (writeString16 [97, 120000, 98])).drop 2) =
      [97, 65533, 98] ∧
    ucs2Repl 120000 = ucs2ReplChar ∧
    (writeDataString (List.replicate 16384 40000) = .error .strTooLong ↔
      32767 < utf8ByteLength (List.replicate 16384 40000)) := by
  have h := writeString16_spec
  refine ⟨?_, h.2.2.1 120000 (by decide), h.2.2.2 (List.replicate 16384 40000)⟩
  have h2 := h.2.1 [97, 120000, 98]
  rw [h2]
  decide

end CM

namespace CM

/-- One entry of the `pktIdInfo` catalog table (serialize.go, second
generation): whether the packet id is assigned at all and in which
directions it may travel. -/
structure PktInfo where
  validPacket : Bool
  clientToServer : Bool
  serverToClient : Bool
deriving Repr, DecidableEq

/-- Embeds `PacketSerializer.readPacketCommon` (serialize.go, second
generation), generic over the `pktIdInfo` catalog `tbl` (a 256-entry table,
indexed by the id byte) and over the per-packet payload reader `payload`
(the `reflect`-driven `readData` at the packet type from the table): an id
whose entry is not `validPacket` is rejected with `ErrorUnknownPacketType`;
then an id not permitted in the arrival direction (`clientToServer` when
`fromClient`, `serverToClient` otherwise) is rejected with
`ErrorUnexpectedPacketId`; only then is the payload read. -/
def readPacketCommon {α : Type} (tbl : Nat → PktInfo)
    (payload : Nat → List Nat → Except ProtoError (α × List Nat))
    (fromClient : Bool) (id : Nat) (s : List Nat) :
    Except ProtoError (α × List Nat) :=
  if (tbl id).validPacket = false then
    .error .unknownPacketType
  else if (if fromClient then (tbl id).clientToServer
      else (tbl id).serverToClient) = false then
    .error (.unexpectedPacketId id)
  else
    payload id s

/-- Embeds `PacketSerializer.ReadPacket`: read the packet-id byte from the
stream (`io.ReadFull` on one byte; an empty stream gives `io.EOF`), then
dispatch through `readPacketCommon`. -/
def ReadPacket {α : Type} (tbl : Nat → PktInfo)
    (payload : Nat → List Nat → Except ProtoError (α × List Nat))
    (fromClient : Bool) (s : List Nat) :
    Except ProtoError (α × List Nat) :=
  match s with
  | [] => .error .ioEOF
  | id :: rest => readPacketCommon tbl payload fromClient id rest

/-- C9: for every catalog table, payload reader, arrival direction and byte
stream, decoding a type-id whose catalog entry is valid but whose direction
flag for the arrival direction is unset returns `ErrorUnexpectedPacketId`
carrying that id, and decoding a type-id whose catalog entry is not valid
returns `ErrorUnknownPacketType`; both results are errors, so no packet
value is produced. -/
theorem readPacket_direction_errors {α : Type} (tbl : Nat → PktInfo)
    (payload : Nat → List Nat → Except ProtoError (α × List Nat))
    (fromClient : Bool) (id : Nat) (rest : List Nat) :
    ((tbl id).validPacket = false →
      ReadPacket tbl payload fromClient (id :: rest) =
        .error .unknownPacketType) ∧
    ((tbl id).validPacket = true →
      (if fromClient then (tbl id).clientToServer
        else (tbl id).serverToClient) = false →
      ReadPacket tbl payload fromClient (id :: rest) =
        .error (.unexpectedPacketId id)) := by
  constructor
  · intro h
    show readPacketCommon tbl payload fromClient id rest = _
    unfold readPacketCommon
    rw [if_pos h]
  · intro hvalid hdir
    show readPacketCommon tbl payload fromClient id rest = _
    unfold readPacketCommon
    rw [if_neg (by rw [hvalid]; exact fun h => Bool.noConfusion h), if_pos hdir]

/-- A one-entry catalog for the witness: id 0x28 (entity metadata) is valid
and server-to-client only, every other id is unassigned - the shape the
spec's catalog gives these ids. -/
def tblW : Nat → PktInfo :=
  fun id => if id = 40 then ⟨true, false, true⟩ else ⟨false, false, false⟩

/-- Trivial payload reader for the witness. -/
def payloadW : Nat → List Nat → Except ProtoError (Nat × List Nat) :=
  fun _ s => .ok (0, s)

/-- Witness for C9: under `tblW`, reading id 0x28 from a client errors with
`UnexpectedPacketId 0x28`, and reading the unassigned id 0x4d errors with
`UnknownPacketType`. -/
theorem readPacket_direction_errors_witness :
    ReadPacket tblW payloadW true [40, 1, 2] =
      .error (.unexpectedPacketId 40) ∧
    ReadPacket tblW payloadW true [77] = .error .unknownPacketType := by
  exact ⟨(readPacket_direction_errors tblW payloadW true 40 [1, 2]).2
      (by decide) (by decide),
    (readPacket_direction_errors tblW payloadW true 77 []).1 (by decide)⟩

/-! ## Chunk-data packet field (part_006 `ChunkData`) -/

/-- `ChunkDataSize` (part_006): the three dimension bytes. -/
structure ChunkDataSize where
  x : Nat
  y : Nat
  z : Nat
deriving Repr, DecidableEq

/-- `ChunkData` (part_006): dimensions plus the raw (uncompressed) data. -/
structure ChunkData where
  size : ChunkDataSize
  data : List Nat
deriving Repr, DecidableEq

/-- Number of data bytes a chunk-data payload must hold:
`numBlocks + 3*(numBlocks>>1)` for
`numBlocks = (int(X)+1) * (int(Y)+1) * (int(Z)+1)`. -/
def expectedNumDataBytes (s : ChunkDataSize) : Nat :=
  (s.x + 1) * (s.y + 1) * (s.z + 1) +
    3 * ((s.x + 1) * (s.y + 1) * (s.z + 1) / 2)

/-- Embeds `ChunkData.MinecraftMarshal` (part_006): write the three size
bytes, then check `len(cd.Data)` against `expectedNumDataBytes` and stop
with `ErrorBadChunkDataSize` on mismatch; otherwise write the compressed
length as uint32 followed by the compressed bytes.  The result pairs the
bytes written to the writer so far with the error, because the Go method
writes the size bytes before discovering the length mismatch.  zlib
compression is standard-library code and enters as the abstract function
`zlibC`. -/
def chunkDataMarshal (zlibC : List Nat → List Nat) (cd : ChunkData) :
    List Nat × Option ProtoError :=
  if cd.data.length ≠ expectedNumDataBytes cd.size then
    ([cd.size.x % 256, cd.size.y % 256, cd.size.z % 256],
      some .badChunkDataSize)
  else
    ([cd.size.x % 256, cd.size.y % 256, cd.size.z % 256] ++
      u32be (zlibC cd.data).length ++ zlibC cd.data, none)

/-- The tail of `ChunkData.MinecraftUnmarshal` after the zlib stream is
open: `io.ReadFull` the `expectedNumDataBytes` into `cd.Data` (yielding
`io.EOF` on an empty read and `io.ErrUnexpectedEOF` on a short one), then
probe for trailing bytes with `io.ReadFull(zReader, dump[:])` into the
4096-byte `dump` buffer: no trailing bytes is success; a full 4096-byte
read comes back with nil error and the method returns `ErrorBadPacketData`;
a partial read of 1-4095 trailing bytes makes `ReadFull` return
`io.ErrUnexpectedEOF`, which the method returns as-is.  `dec` is the entire
decompressed stream, `remaining` the packet stream after the limited
region. -/
def chunkDataCheck (sz : ChunkDataSize) (dec : List Nat)
    (remaining : List Nat) : Except ProtoError (ChunkData × List Nat) :=
  if dec.length < expectedNumDataBytes sz then
    .error (if dec.length = 0 then .ioEOF else .ioUnexpectedEOF)
  else if expectedNumDataBytes sz + 4096 ≤ dec.length then
    .error .badPacketData
  else if expectedNumDataBytes sz < dec.length then
    .error .ioUnexpectedEOF
  else
    .ok (⟨sz, dec⟩, remaining)

/-- `ChunkData.MinecraftUnmarshal` after the header: reject a length whose
int32 reinterpretation is negative with `ErrorLengthNegative`, then
decompress the `length`-limited region with the abstract decompressor
`zlibD` (whose own header errors are outside the model; the limited region
is treated as consumed) and run `chunkDataCheck`. -/
def chunkDataDecode (zlibD : List Nat → List Nat) (sz : ChunkDataSize)
    (lengthU : Nat) (rest : List Nat) :
    Except ProtoError (ChunkData × List Nat) :=
  if 2147483648 ≤ lengthU then
    .error .lengthNegative
  else
    chunkDataCheck sz (zlibD (rest.take lengthU)) (rest.drop lengthU)

/-- Embeds `ChunkData.MinecraftUnmarshal` (part_006): read the three size
bytes (single-byte `ReadFull`s, so running out gives `io.EOF`), the uint32
compressed length (`io.EOF` when absent entirely, `io.ErrUnexpectedEOF`
when cut short), then decode the compressed region. -/
def chunkDataUnmarshal (zlibD : List Nat → List Nat) (s : List Nat) :
    Except ProtoError (ChunkData × List Nat) :=
  match s with
  | x :: y :: z :: a :: b :: c :: d :: rest =>
    chunkDataDecode zlibD ⟨x, y, z⟩ (((a * 256 + b) * 256 + c) * 256 + d)
      rest
  | _ :: _ :: _ :: [] => .error .ioEOF
  | _ :: _ :: _ :: _ => .error .ioUnexpectedEOF
  | _ => .error .ioEOF

/-- A decompressor producing one trailing byte, for the counterexample. -/
def zlibOneTrailing : List Nat → List Nat := fun _ => [0, 0]

/-- A decompressor producing 4096 trailing bytes, for the witness. -/
def zlibBigTrailing : List Nat → List Nat := fun _ => List.replicate 4097 0

/-- Counterexample for C7 as stated: decoding a chunk-data blob of size
(0,0,0) - expected decompressed length 1 - whose zlib stream decompresses
to 2 bytes (one trailing byte) is rejected with `io.ErrUnexpectedEOF`, not
with `BadPacketData`: the `BadPacketData` path needs at least 4096 trailing
bytes. -/
theorem chunkData_claim_counterexample :
    chunkDataUnmarshal zlibOneTrailing [0, 0, 0, 0, 0, 0, 1, 9] =
      .error .ioUnexpectedEOF ∧
    ProtoError.ioUnexpectedEOF ≠ ProtoError.badPacketData := by
  constructor
  · rfl
  · decide

/-- C7 (amended): encoding a `ChunkData` whose `Data` length differs from
`numBlocks + 3*(numBlocks/2)` with `numBlocks = (X+1)*(Y+1)*(Z+1)` returns
`ErrorBadChunkDataSize` having written only the three size bytes and no
compressed payload; decoding a chunk-data blob whose zlib stream holds
bytes beyond the expected decompressed length is always rejected - with
`ErrorBadPacketData` exactly when at least 4096 trailing bytes are present,
and with `io.ErrUnexpectedEOF` for 1 to 4095 trailing bytes. -/
theorem chunkData_length_check_spec (zlibC zlibD : List Nat → List Nat) :
    (∀ cd : ChunkData, cd.data.length ≠ expectedNumDataBytes cd.size →
      chunkDataMarshal zlibC cd =
        ([cd.size.x % 256, cd.size.y % 256, cd.size.z % 256],
          some .badChunkDataSize)) ∧
    (∀ x y z a b c d : Nat, ∀ rest : List Nat,
      ((a * 256 + b) * 256 + c) * 256 + d < 2147483648 →
      expectedNumDataBytes ⟨x, y, z⟩ <
        (zlibD (rest.take (((a * 256 + b) * 256 + c) * 256 + d))).length →
      chunkDataUnmarshal zlibD (x :: y :: z :: a :: b :: c :: d :: rest) =
        .error (if expectedNumDataBytes ⟨x, y, z⟩ + 4096 ≤
            (zlibD (rest.take (((a * 256 + b) * 256 + c) * 256 + d))).length
          then ProtoError.badPacketData else ProtoError.ioUnexpectedEOF)) := by
  constructor
  · intro cd h
    unfold chunkDataMarshal
    rw [if_pos h]
  · intro x y z a b c d rest h1 h2
    show chunkDataDecode zlibD ⟨x, y, z⟩
        (((a * 256 + b) * 256 + c) * 256 + d) rest = _
    unfold chunkDataDecode chunkDataCheck
    rw [if_neg (by omega), if_neg (by omega)]
    by_cases h4 : expectedNumDataBytes ⟨x, y, z⟩ + 4096 ≤
        (zlibD (rest.take (((a * 256 + b) * 256 + c) * 256 + d))).length
    · rw [if_pos h4, if_pos h4]
    · rw [if_neg h4, if_neg h4, if_pos h2]

/-- Witness for C7 (amended): a size-(0,0,0) chunk with a 2-byte `Data`
fails to encode with `BadChunkDataSize` after the three size bytes, and a
blob whose stream decompresses to 4097 bytes (4096 trailing) decodes to
`BadPacketData`. -/
theorem chunkData_length_check_spec_witness :
    chunkDataMarshal zlibOneTrailing ⟨⟨0, 0, 0⟩, [1, 2]⟩ =
      ([0, 0, 0], some .badChunkDataSize) ∧
    chunkDataUnmarshal zlibBigTrailing [0, 0, 0, 0, 0, 0, 1, 9] =
      .error .badPacketData := by
  constructor
  · exact (chunkData_length_check_spec zlibOneTrailing zlibBigTrailing).1
      ⟨⟨0, 0, 0⟩, [1, 2]⟩ (by decide)
  · have h := (chunkData_length_check_spec zlibOneTrailing
        zlibBigTrailing).2 0 0 0 0 0 0 1 [9] (by decide)
      (by simp only [zlibBigTrailing, List.length_replicate]; decide)
    rw [h, if_pos (by simp only [zlibBigTrailing, List.length_replicate]; decide)]

end CM

namespace CM

/-! ## Entity metadata codec (part_005) and the C1 round-trip claim -/

/-- One `Field3` payload of an `EntityMetadata` entry.  The Go field is an
`interface{}`; the forms the codec produces are a byte, an int16, an int32,
a float32 (kept as its IEEE-754 bit pattern - the codec only moves the
bits), a string (list of code points) and the `(int16, byte, int16)`
position struct of cases 5. -/
inductive MetaPayload where
  | mByte (v : Nat)
  | mInt16 (v : Int)
  | mInt32 (v : Int)
  | mFloat32 (bits : Nat)
  | mString (cps : List Nat)
  | mPos (x : Int) (y : Nat) (z : Int)
deriving Repr, DecidableEq

/-- `EntityMetadata` (part_005): the `Field1`/`Field2` bytes and the
`interface{}` payload; `none` models a nil interface. -/
structure EntityMetadata where
  field1 : Nat
  field2 : Nat
  field3 : Option MetaPayload
deriving Repr, DecidableEq

/-- `utf8.EncodeRune` behaviour on the code points `readString16` feeds it
(always below 0x10000): surrogate halves encode as U+FFFD (RuneError),
everything else keeps its value. -/
def utf8RuneSafe (c : Nat) : Nat :=
  if 55296 ≤ c ∧ c ≤ 57343 then 65533 else c

/-- Embeds `PacketSerializer.readString16` (serialize.go, second
generation): read the uint16 code-point count, reject counts whose int16
reinterpretation is negative with `ErrorLengthNegative`, then read two
bytes per code point (UCS-2BE) and re-encode each through
`utf8.EncodeRune`; the in-memory string is modelled by its code-point
list.  A missing or short read surfaces as `io.EOF` respectively
`io.ErrUnexpectedEOF`. -/
def readString16 (s : List Nat) : Except ProtoError (List Nat × List Nat) :=
  match s with
  | a :: b :: rest =>
    if 32768 ≤ a * 256 + b then
      .error .lengthNegative
    else if rest.length < 2 * (a * 256 + b) then
      .error (if rest.length = 0 then .ioEOF else .ioUnexpectedEOF)
    else
      .ok ((ucs2Pairs (rest.take (2 * (a * 256 + b)))).map utf8RuneSafe,
        rest.drop (2 * (a * 256 + b)))
  | [] => .error .ioEOF
  | _ => .error .ioUnexpectedEOF

/-- The `switch item.Field1` payload write of `writeEntityMetadataField`:
cases 0-5 write the asserted payload type (a mismatched payload makes the
Go type assertion panic, modelled as `ErrorInternal`); any other `Field1`
hits no case and writes nothing. -/
def writeMetaPayload (f1 : Nat) (f3 : Option MetaPayload) :
    Except ProtoError (List Nat) :=
  match f1, f3 with
  | 0, some (.mByte v) => .ok [v % 256]
  | 1, some (.mInt16 v) => .ok (i16be v)
  | 2, some (.mInt32 v) => .ok (i32be v)
  | 3, some (.mFloat32 bits) => .ok (u32be bits)
  | 4, some (.mString cps) => writeString16 cps
  | 5, some (.mPos x y z) => .ok (i16be x ++ [y % 256] ++ i16be z)
  | 0, _ | 1, _ | 2, _ | 3, _ | 4, _ | 5, _ => .error .internal
  | _, _ => .ok []

/-- Embeds `writeEntityMetadataField` (part_005): for each entry write the
header byte `((Field1 << 5) & 0xe0) | (Field2 & 0x1f)` (byte shift, hence
the mod 256) and the payload per `Field1`, then the terminator byte 127. -/
def writeEntityMetadataField :
    List EntityMetadata → Except ProtoError (List Nat)
  | [] => .ok [127]
  | item :: rest =>
    match writeMetaPayload item.field1 item.field3 with
    | .error e => .error e
    | .ok payload =>
      match writeEntityMetadataField rest with
      | .error e => .error e
      | .ok tail =>
        .ok ((item.field1 * 32 % 256 &&& 224 ||| item.field2 &&& 31) ::
          payload ++ tail)

/-- The `switch field1 := (entryType & 0xe0) >> 5; field1` payload read of
`readEntityMetadataField`.  `prev` is the current value of the enclosing
`field3` variable: a selector of 6 or 7 hits no case and leaves it (and
the stream) untouched.  `binary.Read` of a multi-byte value yields `io.EOF`
on an empty stream and `io.ErrUnexpectedEOF` on a short one. -/
def readMetaPayload (sel : Nat) (prev : Option MetaPayload) (s : List Nat) :
    Except ProtoError (Option MetaPayload × List Nat) :=
  match sel, s with
  | 0, v :: rest => .ok (some (.mByte v), rest)
  | 1, a :: b :: rest =>
    .ok (some (.mInt16 (int16OfNat (a * 256 + b))), rest)
  | 2, a :: b :: c :: d :: rest =>
    .ok (some (.mInt32 (int32OfNat (((a * 256 + b) * 256 + c) * 256 + d))),
      rest)
  | 3, a :: b :: c :: d :: rest =>
    .ok (some (.mFloat32 (((a * 256 + b) * 256 + c) * 256 + d)), rest)
  | 4, rest =>
    match readString16 rest with
    | .error e => .error e
    | .ok (cps, rest2) => .ok (some (.mString cps), rest2)
  | 5, a :: b :: y :: c :: d :: rest =>
    .ok (some (.mPos (int16OfNat (a * 256 + b)) y (int16OfNat (c * 256 + d))),
      rest)
  | 0, [] | 1, [] | 2, [] | 3, [] | 5, [] => .error .ioEOF
  | 1, _ | 2, _ | 3, _ | 5, _ => .error .ioUnexpectedEOF
  | _, _ => .ok (prev, s)

/-- The read loop of `readEntityMetadataField` (part_005).  The enclosing
function declares `var field1, field2 byte` and `var field3 interface{}`;
the statement `switch field1 := (entryType & 0xe0) >> 5; field1` binds a
NEW `field1` scoped to the switch, so the `field1` parameter here - the
outer variable, never assigned after its zero-value declaration - is what
every appended `EntityMetadata{field1, field2, field3}` carries, while
`field3` persists across iterations.  `fuel` only bounds the recursion for
Lean: it is seeded above the stream length and every iteration consumes at
least the header byte, so the zero-fuel branch is unreachable. -/
def readEMetaLoop (fuel : Nat) (field1 : Nat) (field3 : Option MetaPayload)
    (s : List Nat) : Except ProtoError (List EntityMetadata × List Nat) :=
  match fuel with
  | 0 => .error .internal
  | fuel + 1 =>
    match s with
    | [] => .error .ioEOF
    | entryType :: rest =>
      if entryType = 127 then
        .ok ([], rest)
      else
        match readMetaPayload ((entryType &&& 224) >>> 5) field3 rest with
        | .error e => .error e
        | .ok (f3, rest2) =>
          match readEMetaLoop fuel field1 f3 rest2 with
          | .error e => .error e
          | .ok (entries, rest3) =>
            .ok (⟨field1, entryType &&& 31, f3⟩ :: entries, rest3)

/-- Embeds `readEntityMetadataField` (part_005): run the loop with the
outer `field1 = 0` and `field3 = nil` zero values. -/
def readEntityMetadataField (s : List Nat) :
    Except ProtoError (List EntityMetadata × List Nat) :=
  readEMetaLoop (s.length + 1) 0 none s

/-- `PacketEntityMetadata` (part_006): int32 entity id plus the metadata
table (`EntityMetadataTable` wraps the entry list and defers to the two
functions above). -/
structure PacketEntityMetadata where
  entityId : Int
  metadata : List EntityMetadata
deriving Repr, DecidableEq

/-- `WritePacket` on a `PacketEntityMetadata`: the catalog id byte 0x28,
then `writeData` over the fields - the int32 entity id and the metadata
table. -/
def writePacketEntityMetadata (pkt : PacketEntityMetadata) :
    Except ProtoError (List Nat) :=
  match writeEntityMetadataField pkt.metadata with
  | .error e => .error e
  | .ok mdBytes => .ok (40 :: (i32be pkt.entityId ++ mdBytes))

/-- `readData` over the fields of `PacketEntityMetadata`: the int32 entity
id, then the metadata table. -/
def readPacketEntityMetadataPayload (s : List Nat) :
    Except ProtoError (PacketEntityMetadata × List Nat) :=
  match s with
  | a :: b :: c :: d :: rest =>
    match readEntityMetadataField rest with
    | .error e => .error e
    | .ok (entries, rest2) =>
      .ok (⟨int32OfNat (((a * 256 + b) * 256 + c) * 256 + d), entries⟩,
        rest2)
  | [] => .error .ioEOF
  | _ => .error .ioUnexpectedEOF

/-- The catalog entry for id 0x28 (valid, server-to-client), all other ids
unassigned; the slice of `pktIdInfo` the round-trip below exercises. -/
def tblEM : Nat → PktInfo :=
  fun id => if id = 40 then ⟨true, false, true⟩ else ⟨false, false, false⟩

/-- Payload dispatch for the table above: id 0x28 reads a
`PacketEntityMetadata`. -/
def payloadEM :
    Nat → List Nat → Except ProtoError (PacketEntityMetadata × List Nat) :=
  fun _ s => readPacketEntityMetadataPayload s

/-- C1 (code bug): the claimed encode-decode identity fails.  Serializing
`PacketEntityMetadata{EntityId: 5, Metadata: {{Field1: 2, Field2: 0,
Field3: int32(7)}}}` produces the bytes
`28 00000005 40 00000007 7f` (header byte `(2<<5)&0xe0 = 0x40`), and
deserializing them in the same (server-to-client) direction yields the
entry `{Field1: 0, Field2: 0, Field3: int32(7)}`: in
`readEntityMetadataField` the switch-scoped `field1` shadows the outer
zero-valued `field1` that the appended entry actually carries, so every
decoded entry has `Field1 = 0` and the round-trip is not the identity. -/
theorem entityMetadata_roundtrip_bug :
    writePacketEntityMetadata ⟨5, [⟨2, 0, some (.mInt32 7)⟩]⟩ =
      .ok [40, 0, 0, 0, 5, 64, 0, 0, 0, 7, 127] ∧
    ReadPacket tblEM payloadEM false [40, 0, 0, 0, 5, 64, 0, 0, 0, 7, 127] =
      .ok (⟨5, [⟨0, 0, some (.mInt32 7)⟩]⟩, []) ∧
    (⟨5, [⟨0, 0, some (.mInt32 7)⟩]⟩ : PacketEntityMetadata) ≠
      ⟨5, [⟨2, 0, some (.mInt32 7)⟩]⟩ := by
  refine ⟨rfl, rfl, by decide⟩

end CM
